import Mathlib

/-!
Verification model of the `piloteer` Ansible strategy plugin
(`ansible_plugin/strategies/piloteer.py`).

The plugin is embedded shallowly:

* Python/JSON values are the mutual inductive `PyVal` / `PyEntries` /
  `PyList` (finite trees; Python floats are not needed by any claim and
  are omitted from the model).
* The socket is modelled by a `connected : Bool` flag (`self.sock`
  truthiness) plus the inbound byte stream as a `List String` of
  successive `recv` results; the empty string models an empty read
  (peer closed).  Outbound traffic is returned as the list of lines
  passed to `sendall`.
* `json.dumps` / `json.loads` are modelled by executable `jsonDumps` /
  `jsonLoads` below (`jsonDumps` returns `none` exactly where Python
  raises `TypeError`, i.e. on a non-JSON-serializable object).
-/

namespace Piloteer

mutual

/-- Model of a Python value as handled by the plugin: JSON scalars,
dicts (string keys, insertion ordered), lists, and `other r`, an
arbitrary non-serializable Python object whose `str()` is `r`. -/
inductive PyVal : Type where
  | str (s : String)
  | int (n : Int)
  | bool (b : Bool)
  | pynone
  | dict (es : PyEntries)
  | list (vs : PyList)
  | other (r : String)

/-- Ordered entries of a Python dict with string keys. -/
inductive PyEntries : Type where
  | nil
  | cons (k : String) (v : PyVal) (rest : PyEntries)

/-- Elements of a Python list. -/
inductive PyList : Type where
  | nil
  | cons (v : PyVal) (rest : PyList)

end

mutual

/-- `StrategyModule._serialize_safe(obj, depth)`: the depth check comes
first (so anything strictly deeper than 5 becomes the sentinel), then
scalars pass through, dicts and lists recurse with `depth+1`, and any
other object is stringified. -/
def serialize_safe (depth : Nat) (obj : PyVal) : PyVal :=
  if depth > 5 then .str "<MaxDepth>"
  else match obj with
    | .str s => .str s
    | .int n => .int n
    | .bool b => .bool b
    | .pynone => .pynone
    | .dict es => .dict (serialize_safe_entries (depth + 1) es)
    | .list vs => .list (serialize_safe_list (depth + 1) vs)
    | .other r => .str r

/-- The dict comprehension of `_serialize_safe`: each value is
serialized at `depth+1` (the incremented depth is passed in). -/
def serialize_safe_entries (depth : Nat) (es : PyEntries) : PyEntries :=
  match es with
  | .nil => .nil
  | .cons k v rest => .cons k (serialize_safe depth v) (serialize_safe_entries depth rest)

/-- The list comprehension of `_serialize_safe`. -/
def serialize_safe_list (depth : Nat) (vs : PyList) : PyList :=
  match vs with
  | .nil => .nil
  | .cons v rest => .cons (serialize_safe depth v) (serialize_safe_list depth rest)

end

mutual

/-- Nesting depth of a value: scalars are 0, a dict or list is one more
than the deepest of its members (an empty dict/list has depth 1). -/
def pyDepth : PyVal → Nat
  | .str _ => 0
  | .int _ => 0
  | .bool _ => 0
  | .pynone => 0
  | .other _ => 0
  | .dict es => 1 + pyDepthEntries es
  | .list vs => 1 + pyDepthList vs

def pyDepthEntries : PyEntries → Nat
  | .nil => 0
  | .cons _ v rest => max (pyDepth v) (pyDepthEntries rest)

def pyDepthList : PyList → Nat
  | .nil => 0
  | .cons v rest => max (pyDepth v) (pyDepthList rest)

end

/-- A scalar in the sense of the `isinstance` check of
`_serialize_safe`: `str`, `int`, `float`, `bool`, `NoneType`. -/
def isScalar : PyVal → Bool
  | .str _ => true
  | .int _ => true
  | .bool _ => true
  | .pynone => true
  | _ => false

end Piloteer

namespace Piloteer

/-! ### `json.dumps` model -/

/-- Lowercase hex digit, as produced by Python's escape sequences. -/
def hexDigit (n : Nat) : Char :=
  if n < 10 then Char.ofNat (48 + n) else Char.ofNat (97 + (n - 10))

/-- Four-digit lowercase hex, for a `\uXXXX` escape. -/
def hex4 (n : Nat) : String :=
  String.mk [hexDigit ((n / 4096) % 16), hexDigit ((n / 256) % 16),
             hexDigit ((n / 16) % 16), hexDigit (n % 16)]

/-- Escaping of one character inside a JSON string, following
`json.dumps` with its default `ensure_ascii=True` (astral characters
would use surrogate pairs in Python; no claim touches them). -/
def escapeChar (c : Char) : String :=
  if c = '\x22' then "\\\""
  else if c = '\\' then "\\\\"
  else if c = '\n' then "\\n"
  else if c = '\t' then "\\t"
  else if c = '\r' then "\\r"
  else if c = '\x08' then "\\b"
  else if c = '\x0c' then "\\f"
  else if c.toNat < 32 || c.toNat > 126 then "\\u" ++ hex4 c.toNat
  else String.singleton c

/-- A JSON string literal for `s`. -/
def jsonQuote (s : String) : String :=
  "\x22" ++ String.join (s.toList.map escapeChar) ++ "\x22"

mutual

/-- `json.dumps` with default options (item separator `", "`, key
separator `": "`); returns `none` exactly where Python raises
`TypeError`, i.e. when the value contains a non-serializable object. -/
def jsonDumps : PyVal → Option String
  | .str s => some (jsonQuote s)
  | .int n => some (toString n)
  | .bool b => some (if b then "true" else "false")
  | .pynone => some "null"
  | .dict es =>
    match jsonDumpsEntries es with
    | some parts => some ("\x7b" ++ String.intercalate ", " parts ++ "\x7d")
    | none => none
  | .list vs =>
    match jsonDumpsList vs with
    | some parts => some ("[" ++ String.intercalate ", " parts ++ "]")
    | none => none
  | .other _ => none

def jsonDumpsEntries : PyEntries → Option (List String)
  | .nil => some []
  | .cons k v rest =>
    match jsonDumps v, jsonDumpsEntries rest with
    | some sv, some srest => some ((jsonQuote k ++ ": " ++ sv) :: srest)
    | _, _ => none

def jsonDumpsList : PyList → Option (List String)
  | .nil => some []
  | .cons v rest =>
    match jsonDumps v, jsonDumpsList rest with
    | some sv, some srest => some (sv :: srest)
    | _, _ => none

end

/-! ### `json.loads` model -/

/-- JSON whitespace. -/
def isJsonWs (c : Char) : Bool :=
  c = ' ' || c = '\t' || c = '\n' || c = '\r'

def skipWs : List Char → List Char
  | [] => []
  | c :: cs => if isJsonWs c then skipWs cs else c :: cs

/-- Single-character escapes of JSON strings. -/
def escDecode : Char → Option Char
  | '\x22' => some '\x22'
  | '\\' => some '\\'
  | '/' => some '/'
  | 'n' => some '\n'
  | 't' => some '\t'
  | 'r' => some '\r'
  | 'b' => some '\x08'
  | 'f' => some '\x0c'
  | _ => none

def hexVal (c : Char) : Option Nat :=
  if 48 ≤ c.toNat ∧ c.toNat ≤ 57 then some (c.toNat - 48)
  else if 97 ≤ c.toNat ∧ c.toNat ≤ 102 then some (c.toNat - 87)
  else if 65 ≤ c.toNat ∧ c.toNat ≤ 70 then some (c.toNat - 55)
  else none

/-- Body of a JSON string literal (after the opening quote); returns
the decoded characters and the input after the closing quote. -/
def parseStringChars : List Char → Option (List Char × List Char)
  | [] => none
  | c :: cs =>
    if c = '\x22' then some ([], cs)
    else if c = '\\' then
      match cs with
      | [] => none
      | e :: cs' =>
        if e = 'u' then
          match cs' with
          | a :: b :: c2 :: d :: cs'' =>
            match hexVal a, hexVal b, hexVal c2, hexVal d with
            | some ha, some hb, some hc, some hd =>
              match parseStringChars cs'' with
              | some (tail, rest) =>
                some (Char.ofNat (((ha * 16 + hb) * 16 + hc) * 16 + hd) :: tail, rest)
              | none => none
            | _, _, _, _ => none
          | _ => none
        else
          match escDecode e with
          | some ec =>
            match parseStringChars cs' with
            | some (tail, rest) => some (ec :: tail, rest)
            | none => none
          | none => none
    else
      match parseStringChars cs with
      | some (tail, rest) => some (c :: tail, rest)
      | none => none

def parseDigitsAux (acc : Nat) : List Char → Nat × List Char
  | [] => (acc, [])
  | c :: cs => if c.isDigit then parseDigitsAux (acc * 10 + (c.toNat - 48)) cs else (acc, c :: cs)

def parseDigits : List Char → Option (Nat × List Char)
  | [] => none
  | c :: cs => if c.isDigit then some (parseDigitsAux (c.toNat - 48) cs) else none

/-- JSON number; the model covers integers only (a fraction or exponent
makes the whole line count as unparsed: no claim involves floats). -/
def parseNumber (cs : List Char) : Option (PyVal × List Char) :=
  let p : Bool × List Char :=
    match cs with
    | '-' :: rest => (true, rest)
    | _ => (false, cs)
  match parseDigits p.2 with
  | some (n, rest) =>
    match rest with
    | '.' :: _ => none
    | 'e' :: _ => none
    | 'E' :: _ => none
    | _ => some ((if p.1 then .int (-(n : Int)) else .int (n : Int)), rest)
  | none => none

mutual

/-- One JSON value, fuel-bounded (the fuel only bounds nesting; the
top-level wrapper supplies more fuel than the input length, which every
nesting level strictly consumes, so the bound is never the limiting
factor). -/
def parseValue : Nat → List Char → Option (PyVal × List Char)
  | 0, _ => none
  | fuel + 1, cs =>
    match skipWs cs with
    | [] => none
    | c :: cs' =>
      if c = '\x22' then
        match parseStringChars cs' with
        | some (chars, rest) => some (.str (String.mk chars), rest)
        | none => none
      else if c = '\x7b' then
        match skipWs cs' with
        | '\x7d' :: rest => some (.dict .nil, rest)
        | cs'' =>
          match parseMembers fuel cs'' with
          | some (es, rest) => some (.dict es, rest)
          | none => none
      else if c = '[' then
        match skipWs cs' with
        | ']' :: rest => some (.list .nil, rest)
        | cs'' =>
          match parseElems fuel cs'' with
          | some (vs, rest) => some (.list vs, rest)
          | none => none
      else if c = 't' then
        match cs' with
        | 'r' :: 'u' :: 'e' :: rest => some (.bool true, rest)
        | _ => none
      else if c = 'f' then
        match cs' with
        | 'a' :: 'l' :: 's' :: 'e' :: rest => some (.bool false, rest)
        | _ => none
      else if c = 'n' then
        match cs' with
        | 'u' :: 'l' :: 'l' :: rest => some (.pynone, rest)
        | _ => none
      else parseNumber (c :: cs')

def parseMembers : Nat → List Char → Option (PyEntries × List Char)
  | 0, _ => none
  | fuel + 1, cs =>
    match skipWs cs with
    | '\x22' :: cs' =>
      match parseStringChars cs' with
      | some (kchars, rest1) =>
        match skipWs rest1 with
        | ':' :: rest2 =>
          match parseValue fuel rest2 with
          | some (v, rest3) =>
            match skipWs rest3 with
            | ',' :: rest4 =>
              match parseMembers fuel rest4 with
              | some (es, rest5) => some (.cons (String.mk kchars) v es, rest5)
              | none => none
            | '\x7d' :: rest4 => some (.cons (String.mk kchars) v .nil, rest4)
            | _ => none
          | none => none
        | _ => none
      | none => none
    | _ => none

def parseElems : Nat → List Char → Option (PyList × List Char)
  | 0, _ => none
  | fuel + 1, cs =>
    match parseValue fuel cs with
    | some (v, rest) =>
      match skipWs rest with
      | ',' :: rest' =>
        match parseElems fuel rest' with
        | some (vs, rest'') => some (.cons v vs, rest'')
        | none => none
      | ']' :: rest' => some (.cons v .nil, rest')
      | _ => none
    | none => none

end

/-- `json.loads` on one line: parse a single value and require only
whitespace after it, else the line is malformed (`JSONDecodeError`). -/
def jsonLoads (s : String) : Option PyVal :=
  match parseValue (2 * s.length + 2) s.toList with
  | some (v, rest) => if skipWs rest = [] then some v else none
  | none => none

example : jsonLoads "\x22Proceed\x22" = some (.str "Proceed") := rfl
example : jsonLoads "bad" = none := rfl
example : jsonLoads " \x7b\x22ModifyVar\x22: \x7b\x22key\x22: \x22x\x22, \x22value\x22: \x22y\x22\x7d\x7d " =
    some (.dict (.cons "ModifyVar"
      (.dict (.cons "key" (.str "x") (.cons "value" (.str "y") .nil))) .nil)) := rfl
example : jsonDumps (.dict (.cons "Error" (.str "Serialization Failed") .nil)) =
    some "\x7b\x22Error\x22: \x22Serialization Failed\x22\x7d" := rfl
example : jsonDumps (.list (.cons (.int (-3)) (.cons (.other "obj") .nil))) = none := rfl

end Piloteer

namespace Piloteer

/-- Lookup in a Python dict (`es[k]` / `k in es` / `es.get(k)`): first
entry with the given key (keys of a real dict are unique). -/
def entriesGet (es : PyEntries) (k : String) : Option PyVal :=
  match es with
  | .nil => none
  | .cons k' v rest => if k' = k then some v else entriesGet rest k

/-! ### The Controller Session socket layer

`self.sock` truthiness is the `connected : Bool` flag (Degraded =
`false`).  Inbound traffic is a `List String` of successive
`recv().decode()` results; the chunk `""` is an empty read (peer
closed).  When the list runs out the Python code would sit in a
blocking `recv` forever; the model returns a `starved` outcome carrying
the retained buffer. -/

/-- Characters before the first newline, and those after it. -/
def breakNl : List Char → List Char × List Char
  | [] => ([], [])
  | c :: cs => if c = '\n' then ([], cs) else
      let p := breakNl cs
      (c :: p.1, p.2)

/-- Whether a newline occurs in the characters. -/
def hasNl : List Char → Bool
  | [] => false
  | c :: cs => if c = '\n' then true else hasNl cs

/-- `"\n" in buffer`. -/
def containsNl (s : String) : Bool := hasNl s.data

/-- `buffer.split("\n", 1)`: the text before the first newline and
everything after it (callers only split when a newline is present). -/
def splitOnceNl (s : String) : String × String :=
  let p := breakNl s.data
  (String.mk p.1, String.mk p.2)

/-- `StrategyModule._send`: on a connected session encode and send one
line; a `TypeError` from `json.dumps` substitutes the fixed error
object; a Degraded session sends nothing.  The result is the list of
lines passed to `sendall`. -/
def send (connected : Bool) (data : PyVal) : List String :=
  if connected then
    match jsonDumps data with
    | some m => [m ++ "\n"]
    | none => [((jsonDumps (.dict (.cons "Error" (.str "Serialization Failed") .nil))).getD "") ++ "\n"]
  else []

/-- Outcome of `_wait_for_proceed`: the Python function returns `None`
both on seeing `Proceed` and on an empty read (and immediately when
Degraded) — all modelled as `released`; `starved b` means the modelled
input ran out while the code sat in `recv` with `b` still buffered. -/
inductive GateResult : Type where
  | released
  | starved (buffer : String)
deriving DecidableEq

/-- The read loop of `_wait_for_proceed`.  Note the faithful `if` (not
a loop) around the newline check: at most one line is decoded per
`recv`; the remainder stays in the buffer until the next chunk.
Returns the outcome and the unconsumed chunks. -/
def wait_for_proceed_loop : List String → String → GateResult × List String
  | [], buffer => (.starved buffer, [])
  | chunk :: rest, buffer =>
    if chunk = "" then (.released, rest)
    else
      let buffer' := buffer ++ chunk
      if containsNl buffer' then
        let lb := splitOnceNl buffer'
        match jsonLoads lb.1 with
        | some v =>
          match v with
          | .str s => if s = "Proceed" then (.released, rest) else wait_for_proceed_loop rest lb.2
          | _ => wait_for_proceed_loop rest lb.2
        | none => wait_for_proceed_loop rest lb.2
      else wait_for_proceed_loop rest buffer'

/-- `StrategyModule._wait_for_proceed`. -/
def wait_for_proceed (connected : Bool) (chunks : List String) : GateResult × List String :=
  if connected then wait_for_proceed_loop chunks "" else (.released, chunks)

/-- Return value of `_wait_for_command`: the `(cmd_type, cmd_data)`
pair, where `cont` is `("Continue", None)` — produced by an inbound
`"Continue"`, an inbound bare `"Proceed"`, an empty read, and a
Degraded session alike.  `starved b` again means the modelled input ran
out inside `recv`. -/
inductive CmdOutcome : Type where
  | retry
  | modifyVar (d : PyVal)
  | cont
  | starved (buffer : String)

/-- The read loop of `_wait_for_command`; same single-split-per-`recv`
shape as `_wait_for_proceed`, with the dispatch on the parsed message
in source order (`"Retry"`, then a dict containing `"ModifyVar"`, then
`"Continue"`, then `"Proceed"`).  When a command is returned, any text
left in the local buffer is discarded with it. -/
def wait_for_command_loop : List String → String → CmdOutcome × List String
  | [], buffer => (.starved buffer, [])
  | chunk :: rest, buffer =>
    if chunk = "" then (.cont, rest)
    else
      let buffer' := buffer ++ chunk
      if containsNl buffer' then
        let lb := splitOnceNl buffer'
        match jsonLoads lb.1 with
        | some v =>
          match v with
          | .str s =>
            if s = "Retry" then (.retry, rest)
            else if s = "Continue" then (.cont, rest)
            else if s = "Proceed" then (.cont, rest)
            else wait_for_command_loop rest lb.2
          | .dict es =>
            match entriesGet es "ModifyVar" with
            | some d => (.modifyVar d, rest)
            | none => wait_for_command_loop rest lb.2
          | _ => wait_for_command_loop rest lb.2
        | none => wait_for_command_loop rest lb.2
      else wait_for_command_loop rest buffer'

/-- `StrategyModule._wait_for_command`. -/
def wait_for_command (connected : Bool) (chunks : List String) : CmdOutcome × List String :=
  if connected then wait_for_command_loop chunks "" else (.cont, chunks)

end Piloteer

namespace Piloteer

/-! ### Engine bookkeeping state and helpers -/

/-- First-match association lookup (a Python dict read). -/
def assocGet {α β : Type} [DecidableEq α] (l : List (α × β)) (k : α) : Option β :=
  match l with
  | [] => none
  | (k', v) :: rest => if k' = k then some v else assocGet rest k

/-- Python dict assignment `l[k] = v`: overwrite in place, else append. -/
def assocSet {α β : Type} [DecidableEq α] (l : List (α × β)) (k : α) (v : β) : List (α × β) :=
  match l with
  | [] => [(k, v)]
  | (k', v') :: rest => if k' = k then (k, v) :: rest else (k', v') :: assocSet rest k v

mutual

/-- Python `==` on the modelled values. -/
def pyBeq : PyVal → PyVal → Bool
  | .str a, .str b => a = b
  | .int a, .int b => a = b
  | .bool a, .bool b => a = b
  | .pynone, .pynone => true
  | .dict a, .dict b => pyBeqEntries a b
  | .list a, .list b => pyBeqList a b
  | .other a, .other b => a = b
  | _, _ => false

def pyBeqEntries : PyEntries → PyEntries → Bool
  | .nil, .nil => true
  | .cons k v r, .cons k' v' r' => k = k' && pyBeq v v' && pyBeqEntries r r'
  | _, _ => false

def pyBeqList : PyList → PyList → Bool
  | .nil, .nil => true
  | .cons v r, .cons v' r' => pyBeq v v' && pyBeqList r r'
  | _, _ => false

end

/-- Assignment into the `extra_vars` dict, whose keys are arbitrary
(hashable) Python values. -/
def pvSet (l : List (PyVal × PyVal)) (k v : PyVal) : List (PyVal × PyVal) :=
  match l with
  | [] => [(k, v)]
  | (k', v') :: rest => if pyBeq k' k then (k, v) :: rest else (k', v') :: pvSet rest k v

/-- Python truthiness of a modelled value. -/
def pyTruthy : PyVal → Bool
  | .str s => !(s = "")
  | .int n => !(n = 0)
  | .bool b => b
  | .pynone => false
  | .dict .nil => false
  | .dict _ => true
  | .list .nil => false
  | .list _ => true
  | .other _ => true

/-- Whether a value can be a Python dict key (hashable). -/
def pyHashable : PyVal → Bool
  | .dict _ => false
  | .list _ => false
  | _ => true

/-- `result_data.get(k, dflt)` (result payloads are dicts). -/
def pyGetD (v : PyVal) (k : String) (dflt : PyVal) : PyVal :=
  match v with
  | .dict es => (entriesGet es k).getD dflt
  | _ => dflt

/-- `AggregateStats.decrement('failures', host)` of the surrounding
engine (not part of this repository): decrement the host's counter,
flooring at zero — `Nat` subtraction models the floor exactly. -/
def statsDecrement (s : List (String × Nat)) (h : String) : List (String × Nat) :=
  assocSet s h (((assocGet s h).getD 0) - 1)

/-- One result handed back by the parent strategy's result processing:
classification flags and the raw payload.  The task is identified by
its name (standing in for the task object and its uuid). -/
structure TaskRes where
  host : String
  task : String
  unreachable : Bool
  failed : Bool
  changed : Bool
  data : PyVal

/-- A `_queued_task_cache` entry: the vars and context of the original
dispatch. -/
structure DispatchCtx where
  task_vars : PyVal
  play_ctx : String

/-- Ambient pieces the strategy reads: the session flag, the dispatch
cache (keyed by host name and task), fresh variable resolution
(`_variable_manager.get_vars`), and `self.play_context`. -/
structure Cfg where
  connected : Bool
  cache : List ((String × String) × DispatchCtx)
  fresh_vars : String → String → PyVal
  play_ctx : String

/-- A `_queue_task(host, task, task_vars, play_context)` call. -/
structure QueuedTask where
  host : String
  task : String
  task_vars : PyVal
  play_ctx : String

/-- Engine-owned bookkeeping mutated by the strategy: per-host iterator
positions (`iterator.host_states`, positions abstracted as `Nat`), the
TQM failed-host set, `iterator._play._removed_hosts`, the per-host
`failures` counters of `_tqm._stats`, `self._blocked_hosts`, the
process-wide `extra_vars` override table, and the trace of
`_queue_task` calls. -/
structure EngineState where
  host_states : List (String × Nat)
  failed_hosts : List String
  removed_hosts : List String
  stats_failures : List (String × Nat)
  blocked_hosts : List (String × Bool)
  extra_vars : List (PyVal × PyVal)
  queued : List QueuedTask

/-! ### Outbound message shapes (the dict literals of the source) -/

def task_fail_msg (task : String) (safe : PyVal) : PyVal :=
  .dict (.cons "TaskFail" (.dict (.cons "name" (.str task) (.cons "result" safe .nil))) .nil)

def task_unreachable_msg (task host : String) (err safe : PyVal) : PyVal :=
  .dict (.cons "TaskUnreachable" (.dict (.cons "name" (.str task) (.cons "host" (.str host)
    (.cons "error" err (.cons "result" safe .nil))))) .nil)

def task_result_msg (task host : String) (changed failed : Bool) (verbose : PyVal) : PyVal :=
  .dict (.cons "TaskResult" (.dict (.cons "name" (.str task) (.cons "host" (.str host)
    (.cons "changed" (.bool changed) (.cons "failed" (.bool failed)
      (.cons "verbose_result" verbose .nil)))))) .nil)

def task_start_msg (name : String) (vars : PyEntries) : PyVal :=
  .dict (.cons "TaskStart" (.dict (.cons "name" (.str name)
    (.cons "task_vars" (.dict vars) .nil))) .nil)

/-! ### The Failure Intervention Loop -/

/-- How the `while True` debug loop ended: `retried` / `continued` are
the two `break`s, `awaiting` means the modelled inbound stream ran out
while the loop blocked for a further command (it also covers the
unreachable out-of-fuel case of the wrapper below), `crashed` is the
uncaught `AttributeError`/`TypeError` on a malformed `ModifyVar`
payload. -/
inductive LoopStatus : Type where
  | retried
  | continued
  | awaiting
  | crashed
deriving DecidableEq

structure LoopOut where
  state : EngineState
  sent : List String
  cleaned : Bool
  status : LoopStatus
  chunksLeft : List String

/-- The `while True` command loop entered after a `TaskFail`, with
explicit fuel (the wrapper passes `chunks.length + 1`; every iteration
consumes at least one chunk, so the fuel never runs out — see
`wait_for_command_loop_length` and `debug_loop_fuel_irrel` below).
`prev` is `prev_host_states`, `safe` the serialized failure payload. -/
def debug_loop_fuel (cfg : Cfg) (prev : List (String × Nat)) (res : TaskRes) (safe : PyVal) :
    Nat → EngineState → List String → LoopOut
  | 0, st, chunks => ⟨st, [], false, .awaiting, chunks⟩
  | fuel + 1, st, chunks =>
    match wait_for_command cfg.connected chunks with
    | (.starved _, rem) => ⟨st, [], false, .awaiting, rem⟩
    | (.retry, rem) =>
      -- 1. Restore Iterator State (only if the snapshot covers the host)
      let st1 := match assocGet prev res.host with
        | some s => { st with host_states := assocSet st.host_states res.host s }
        | none => st
      -- 2. Un-fail host in TQM (del is guarded by membership)
      let st2 := { st1 with failed_hosts := st1.failed_hosts.erase res.host }
      -- 3. Put back in active hosts if it was removed
      let st3 := { st2 with removed_hosts := st2.removed_hosts.erase res.host }
      -- 4. Decrement Stats
      let st4 := { st3 with stats_failures := statsDecrement st3.stats_failures res.host }
      -- 5. Re-queue: mark blocked, pick cached or fresh dispatch context
      let st5 := { st4 with blocked_hosts := assocSet st4.blocked_hosts res.host true }
      let tvpc : PyVal × String :=
        match assocGet cfg.cache (res.host, res.task) with
        | some c => (c.task_vars, c.play_ctx)
        | none => (cfg.fresh_vars res.host res.task, cfg.play_ctx)
      let st6 := { st5 with queued := st5.queued ++ [⟨res.host, res.task, tvpc.1, tvpc.2⟩] }
      ⟨st6, [], false, .retried, rem⟩
    | (.modifyVar d, rem) =>
      match d with
      | .dict es =>
        let key := (entriesGet es "key").getD .pynone
        if pyTruthy key then
          if pyHashable key then
            let val := (entriesGet es "value").getD .pynone
            debug_loop_fuel cfg prev res safe fuel
              { st with extra_vars := pvSet st.extra_vars key val } rem
          else ⟨st, [], false, .crashed, rem⟩
        else debug_loop_fuel cfg prev res safe fuel st rem
      | _ => ⟨st, [], false, .crashed, rem⟩
    | (.cont, rem) =>
      ⟨st, send cfg.connected (task_result_msg res.task res.host false true safe), true,
        .continued, rem⟩

/-- The debug loop with its fuel instantiated (always sufficient). -/
def debug_loop (cfg : Cfg) (prev : List (String × Nat)) (res : TaskRes) (safe : PyVal)
    (st : EngineState) (chunks : List String) : LoopOut :=
  debug_loop_fuel cfg prev res safe (chunks.length + 1) st chunks

end Piloteer

namespace Piloteer

/-! ### `_process_pending_results` -/

/-- How a result-processing pass ended: `blockedAwait` means the
control thread is blocked in the debug loop with the modelled inbound
stream exhausted (later results stay unprocessed), `crashed` propagates
the debug loop's exception. -/
inductive PassStatus : Type where
  | done
  | blockedAwait
  | crashed
deriving DecidableEq

structure StepOut where
  state : EngineState
  sent : List String
  cleaned : List TaskRes
  entered : Bool
  status : PassStatus
  chunksLeft : List String

/-- The per-result body of `_process_pending_results`: unreachable
results emit one `TaskUnreachable` and never enter the debug loop;
logical failures emit `TaskFail` and enter it; successes emit one
`TaskResult`. -/
def process_result (cfg : Cfg) (prev : List (String × Nat)) (st : EngineState)
    (res : TaskRes) (chunks : List String) : StepOut :=
  if res.unreachable then
    let error_msg := pyGetD res.data "msg" (.str "Host unreachable")
    let safe := serialize_safe 0 res.data
    ⟨st, send cfg.connected (task_unreachable_msg res.task res.host error_msg safe),
      [res], false, .done, chunks⟩
  else if res.failed then
    let safe := serialize_safe 0 res.data
    let fail_sent := send cfg.connected (task_fail_msg res.task safe)
    let lo := debug_loop cfg prev res safe st chunks
    ⟨lo.state, fail_sent ++ lo.sent, if lo.cleaned then [res] else [], true,
      (match lo.status with
       | .awaiting => .blockedAwait
       | .crashed => .crashed
       | _ => .done), lo.chunksLeft⟩
  else
    let safe := serialize_safe 0 res.data
    ⟨st, send cfg.connected (task_result_msg res.task res.host res.changed false safe),
      [res], false, .done, chunks⟩

structure PassOut where
  state : EngineState
  sent : List String
  cleaned : List TaskRes
  entered : List (String × String)
  status : PassStatus
  chunksLeft : List String

/-- The `for res in results` loop of `_process_pending_results`,
threading engine state and the inbound stream; `entered` records the
(host, task) of every entry into the Failure Intervention Loop. -/
def process_results (cfg : Cfg) (prev : List (String × Nat)) :
    EngineState → List TaskRes → List String → PassOut
  | st, [], chunks => ⟨st, [], [], [], .done, chunks⟩
  | st, res :: rest, chunks =>
    let so := process_result cfg prev st res chunks
    match so.status with
    | .done =>
      let po := process_results cfg prev so.state rest so.chunksLeft
      ⟨po.state, so.sent ++ po.sent, so.cleaned ++ po.cleaned,
        (if so.entered then [(res.host, res.task)] else []) ++ po.entered,
        po.status, po.chunksLeft⟩
    | s =>
      ⟨so.state, so.sent, so.cleaned,
        if so.entered then [(res.host, res.task)] else [], s, so.chunksLeft⟩

/-- `StrategyModule._process_pending_results`: capture the pass-start
snapshot `prev_host_states` from `iterator.host_states`, run the parent
strategy's result processing (an external collaborator, passed in as
`parent`), then process each result against that snapshot. -/
def process_pending_results (cfg : Cfg) (parent : EngineState → List TaskRes × EngineState)
    (st : EngineState) (chunks : List String) : PassOut :=
  let prev := st.host_states
  let pr := parent st
  process_results cfg prev pr.2 pr.1 chunks

/-! ### `_get_next_task_lockstep` -/

/-- `k.startswith(p)`. -/
def strStartsWith (k p : String) : Bool := p.data.isPrefixOf k.data

/-- The variable filtering of `_get_next_task_lockstep`: drop keys with
the reserved `ansible_` prefix; keep values `json.dumps` accepts; any
value it rejects (the bare `except`) becomes the placeholder. -/
def serializable_vars : PyEntries → PyEntries
  | .nil => .nil
  | .cons k v rest =>
    if strStartsWith k "ansible_" then serializable_vars rest
    else match jsonDumps v with
      | some _ => .cons k v (serializable_vars rest)
      | none => .cons k (.str "<Non-Serializable>") (serializable_vars rest)

structure LockstepOut where
  sent : List String
  gate : Option GateResult
  chunksLeft : List String
  result : List (String × Option String)

/-- `StrategyModule._get_next_task_lockstep`: when the parent returned
a non-empty batch whose first pair carries a real task, emit one
`TaskStart` with the filtered vars of that first (host, task) and block
on the Flow Gate; the batch itself is returned unchanged.  Tasks are
identified by name; `task_vars` is what `get_vars` returned for the
first pair. -/
def get_next_task_lockstep (connected : Bool) (hosts_tasks : List (String × Option String))
    (task_vars : PyEntries) (chunks : List String) : LockstepOut :=
  match hosts_tasks with
  | (_, some t) :: _ =>
    let sv := serializable_vars task_vars
    let sent := send connected (task_start_msg t sv)
    let g := wait_for_proceed connected chunks
    ⟨sent, some g.1, g.2, hosts_tasks⟩
  | _ => ⟨[], none, chunks, hosts_tasks⟩

end Piloteer

namespace Piloteer

/-! ### Supporting lemmas -/

/-- Each pass through the command-wait loop consumes at least one
chunk, so on non-empty input strictly fewer chunks remain. -/
theorem wait_for_command_loop_length : ∀ (chunks : List String) (buffer : String),
    chunks ≠ [] → (wait_for_command_loop chunks buffer).2.length < chunks.length := by
  intro chunks
  induction chunks with
  | nil => intro buffer h; exact absurd rfl h
  | cons c rest ih =>
    intro buffer _
    have hrec : ∀ b' : String, (wait_for_command_loop rest b').2.length < rest.length + 1 := by
      intro b'
      cases rest with
      | nil => simp [wait_for_command_loop]
      | cons d ds => exact Nat.lt_succ_of_lt (ih b' (by simp))
    simp only [wait_for_command_loop, List.length_cons]
    repeat' split
    all_goals first
      | (exact Nat.lt_succ_self _)
      | (exact hrec _)

/-- A `ModifyVar` outcome strictly consumed input. -/
theorem wait_for_command_modifyVar_length {conn : Bool} {chunks rem : List String} {d : PyVal}
    (h : wait_for_command conn chunks = (.modifyVar d, rem)) : rem.length < chunks.length := by
  by_cases hc : conn
  · rw [wait_for_command, if_pos hc] at h
    have hne : chunks ≠ [] := by
      intro hnil
      rw [hnil] at h
      simp [wait_for_command_loop] at h
    have := wait_for_command_loop_length chunks "" hne
    rw [h] at this
    simpa using this
  · rw [wait_for_command, if_neg hc] at h
    simp at h

end Piloteer

namespace Piloteer

/-- The wrapper's fuel is irrelevant once it exceeds the number of
chunks: the Python `while True` and the fuelled model agree. -/
theorem debug_loop_fuel_irrel (cfg : Cfg) (prev : List (String × Nat)) (res : TaskRes)
    (safe : PyVal) :
    ∀ (f₁ f₂ : Nat) (st : EngineState) (chunks : List String),
      chunks.length < f₁ → chunks.length < f₂ →
      debug_loop_fuel cfg prev res safe f₁ st chunks =
        debug_loop_fuel cfg prev res safe f₂ st chunks := by
  intro f₁
  induction f₁ with
  | zero => intro f₂ st chunks h₁ h₂; exact absurd h₁ (by omega)
  | succ n ih =>
    intro f₂ st chunks h₁ h₂
    cases f₂ with
    | zero => exact absurd h₂ (by omega)
    | succ m =>
      simp only [debug_loop_fuel]
      cases hw : wait_for_command cfg.connected chunks with
      | mk o rem =>
        cases o with
        | starved b => rfl
        | retry => rfl
        | cont => rfl
        | modifyVar d =>
          have hlen : rem.length < chunks.length := wait_for_command_modifyVar_length hw
          cases d with
          | dict es =>
            simp only []
            split
            · split
              · exact ih m _ rem (by omega) (by omega)
              · rfl
            · exact ih m _ rem (by omega) (by omega)
          | str s => rfl
          | int i => rfl
          | bool b => rfl
          | pynone => rfl
          | list vs => rfl
          | other r => rfl

end Piloteer

namespace Piloteer

mutual

/-- The serialized output of `_serialize_safe` at call depth `d` nests
at most `6 - d` levels: the transform is depth-bounded. -/
theorem serialize_safe_depth_le (d : Nat) (v : PyVal) :
    pyDepth (serialize_safe d v) ≤ 6 - d := by
  cases v with
  | str s => by_cases h : d > 5 <;> simp [serialize_safe, h, pyDepth]
  | int n => by_cases h : d > 5 <;> simp [serialize_safe, h, pyDepth]
  | bool b => by_cases h : d > 5 <;> simp [serialize_safe, h, pyDepth]
  | pynone => by_cases h : d > 5 <;> simp [serialize_safe, h, pyDepth]
  | other r => by_cases h : d > 5 <;> simp [serialize_safe, h, pyDepth]
  | dict es =>
    by_cases h : d > 5
    · simp [serialize_safe, h, pyDepth]
    · have hrec := serialize_safe_entries_depth_le (d + 1) es
      simp only [serialize_safe, if_neg h, pyDepth]
      omega
  | list vs =>
    by_cases h : d > 5
    · simp [serialize_safe, h, pyDepth]
    · have hrec := serialize_safe_list_depth_le (d + 1) vs
      simp only [serialize_safe, if_neg h, pyDepth]
      omega

theorem serialize_safe_entries_depth_le (d : Nat) (es : PyEntries) :
    pyDepthEntries (serialize_safe_entries d es) ≤ 6 - d := by
  cases es with
  | nil => simp [serialize_safe_entries, pyDepthEntries]
  | cons k v rest =>
    have h1 := serialize_safe_depth_le d v
    have h2 := serialize_safe_entries_depth_le d rest
    simp only [serialize_safe_entries, pyDepthEntries]
    exact max_le h1 h2

theorem serialize_safe_list_depth_le (d : Nat) (vs : PyList) :
    pyDepthList (serialize_safe_list d vs) ≤ 6 - d := by
  cases vs with
  | nil => simp [serialize_safe_list, pyDepthList]
  | cons v rest =>
    have h1 := serialize_safe_depth_le d v
    have h2 := serialize_safe_list_depth_le d rest
    simp only [serialize_safe_list, pyDepthList]
    exact max_le h1 h2

end

/-- Claim C7: the depth-bounded payload transform `_serialize_safe` is
a total function on arbitrary finitely-nested values — for every
payload and starting depth it terminates with a well-defined result
(whose nesting is moreover bounded by `6 - d`, so no recursion can run
away), and, being total on the whole `PyVal` type, it never throws. -/
theorem c7_serialize_safe_total (v : PyVal) (d : Nat) :
    ∃ r, serialize_safe d v = r ∧ pyDepth r ≤ 6 - d :=
  ⟨_, rfl, serialize_safe_depth_le d v⟩

/-- A mapping nested six levels deep: the innermost value sits at
recursion depth 6. -/
def deep6 : PyVal :=
  .dict (.cons "L1" (.dict (.cons "L2" (.dict (.cons "L3" (.dict (.cons "L4"
    (.dict (.cons "L5" (.dict (.cons "L6" (.int 7) .nil)) .nil)) .nil)) .nil)) .nil)) .nil)

/-- `deep6` after the transform: everything at depth at most 5
survives, the depth-6 subtree is the sentinel. -/
def deep6_truncated : PyVal :=
  .dict (.cons "L1" (.dict (.cons "L2" (.dict (.cons "L3" (.dict (.cons "L4"
    (.dict (.cons "L5" (.dict (.cons "L6" (.str "<MaxDepth>") .nil)) .nil)) .nil)) .nil)) .nil)) .nil)

/-- A four-level structure mixing scalars, mappings and sequences. -/
def mixed4 : PyVal :=
  .dict (.cons "a" (.list (.cons (.int 1) (.cons (.dict (.cons "b"
    (.list (.cons (.str "x") .nil)) .nil)) .nil)))
    (.cons "c" (.bool true) .nil))

/-- Claim C6: `_serialize_safe` passes scalars through unchanged,
recurses into mappings and sequences while the depth stays within 5,
replaces any subtree beyond depth 5 with the `"<MaxDepth>"` sentinel,
and stringifies any other value; concretely, a 6-level-deep nested
mapping is truncated exactly at depth 5 with the sentinel, and a
4-level-deep structure of scalars, mappings and sequences is returned
unchanged. -/
theorem c6_serialize_safe_behaviour :
    (∀ (d : Nat) (v : PyVal), d ≤ 5 → isScalar v = true → serialize_safe d v = v) ∧
    (∀ (d : Nat) (es : PyEntries), d ≤ 5 →
      serialize_safe d (.dict es) = .dict (serialize_safe_entries (d + 1) es)) ∧
    (∀ (d : Nat) (vs : PyList), d ≤ 5 →
      serialize_safe d (.list vs) = .list (serialize_safe_list (d + 1) vs)) ∧
    (∀ (d : Nat) (v : PyVal), 5 < d → serialize_safe d v = .str "<MaxDepth>") ∧
    (∀ (d : Nat) (r : String), d ≤ 5 → serialize_safe d (.other r) = .str r) ∧
    serialize_safe 0 deep6 = deep6_truncated ∧
    serialize_safe 0 mixed4 = mixed4 := by
  refine ⟨?_, ?_, ?_, ?_, ?_, rfl, rfl⟩
  · intro d v hd hs
    have h5 : ¬ d > 5 := by omega
    cases v with
    | str s => simp [serialize_safe, h5]
    | int n => simp [serialize_safe, h5]
    | bool b => simp [serialize_safe, h5]
    | pynone => simp [serialize_safe, h5]
    | dict es => simp [isScalar] at hs
    | list vs => simp [isScalar] at hs
    | other r => simp [isScalar] at hs
  · intro d es hd
    have h5 : ¬ d > 5 := by omega
    simp [serialize_safe, h5]
  · intro d vs hd
    have h5 : ¬ d > 5 := by omega
    simp [serialize_safe, h5]
  · intro d v h5
    cases v <;> simp [serialize_safe, h5]
  · intro d r hd
    have h5 : ¬ d > 5 := by omega
    simp [serialize_safe, h5]

/-- Witness for C6 at concrete inputs. -/
theorem c6_serialize_safe_behaviour_witness :
    serialize_safe 3 (.str "a") = .str "a" ∧
    serialize_safe 6 (.bool true) = .str "<MaxDepth>" ∧
    serialize_safe 5 (.other "obj") = .str "obj" :=
  ⟨c6_serialize_safe_behaviour.1 3 (.str "a") (by decide) rfl,
   c6_serialize_safe_behaviour.2.2.2.1 6 (.bool true) (by decide),
   c6_serialize_safe_behaviour.2.2.2.2.1 5 "obj" (by decide)⟩

/-- Claim C4: on a Degraded session (no live socket), `_send` is a
no-op, `_wait_for_proceed` returns immediately, and `_wait_for_command`
returns immediately with the default `("Continue", None)` — none of
them consumes any inbound data, blocks, or raises. -/
theorem c4_degraded_session_defaults (data : PyVal) (chunks : List String) :
    send false data = [] ∧
    wait_for_proceed false chunks = (.released, chunks) ∧
    wait_for_command false chunks = (.cont, chunks) :=
  ⟨rfl, rfl, rfl⟩

/-- Claim C10: on a connected session, a message whose JSON encoding
raises `TypeError` is neither propagated nor dropped: exactly the
single substitute line for the dict with key `Error` and value
`Serialization Failed`, newline-terminated, is sent in its place. -/
theorem c10_send_serialization_failure (data : PyVal) (h : jsonDumps data = none) :
    send true data = ["\x7b\x22Error\x22: \x22Serialization Failed\x22\x7d\n"] := by
  rw [send, if_pos rfl, h]
  rfl

/-- Witness for C10: a Python `set` (non-serializable object) inside a
payload. -/
theorem c10_send_serialization_failure_witness :
    jsonDumps (PyVal.other "set()") = none ∧
    send true (PyVal.other "set()") = ["\x7b\x22Error\x22: \x22Serialization Failed\x22\x7d\n"] :=
  ⟨rfl, c10_send_serialization_failure (PyVal.other "set()") rfl⟩

end Piloteer

namespace Piloteer

theorem hasNl_append_nl (l : List Char) : hasNl (l ++ ['\n']) = true := by
  induction l with
  | nil => simp [hasNl]
  | cons c cs ih =>
    by_cases hc : c = '\n' <;> simp [hasNl, hc, ih]

theorem hasNl_append_left {l₁ : List Char} (l₂ : List Char) (h : hasNl l₁ = true) :
    hasNl (l₁ ++ l₂) = true := by
  induction l₁ with
  | nil => simp [hasNl] at h
  | cons c cs ih =>
    by_cases hc : c = '\n'
    · simp [hasNl, hc]
    · simp only [hasNl, if_neg hc] at h
      simpa [hasNl, hc] using ih h

theorem breakNl_append {l r : List Char} (h : hasNl l = false) :
    breakNl (l ++ '\n' :: r) = (l, r) := by
  induction l with
  | nil => simp [breakNl]
  | cons c cs ih =>
    by_cases hc : c = '\n'
    · simp only [hasNl, if_pos hc] at h
      exact Bool.noConfusion h
    · simp only [hasNl, if_neg hc] at h
      simp [breakNl, hc, ih h]

/-- Claim C3, counterexample: the inbound stream delivers the chunk
`bad\n"Proceed"\n` — a malformed line followed, in the same read chunk,
by a bare `Proceed`.  The gate discards the malformed line but decodes
at most one line per `recv`, so it goes back to `recv` with
`"Proceed"\n` still buffered: with no further input it stays blocked
(first conjunct) instead of releasing as the claim states; any
subsequent read (here `"x"`) finally releases it (second conjunct). -/
theorem c3_same_chunk_counterexample :
    (wait_for_proceed true ["bad\n\x22Proceed\x22\n"]).1 =
      GateResult.starved "\x22Proceed\x22\n" ∧
    wait_for_proceed true ["bad\n\x22Proceed\x22\n", "x"] = (.released, []) :=
  ⟨rfl, rfl⟩

/-- Claim C3 (amended): the gate never fails terminally — a malformed
line arriving as its own chunk is discarded silently and decoding
resumes on the subsequent input (first conjunct), and an empty read
(peer closed) releases the gate fail-open (second conjunct); however a
`Proceed` buffered behind a malformed line in the same read chunk
releases the gate only after a further read arrives, because at most
one line is decoded per `recv` (see `c3_same_chunk_counterexample`). -/
theorem c3_gate_discard_and_failopen (s : String) (rest : List String) (buffer : String)
    (hmal : jsonLoads s = none) (hnl : hasNl s.data = false) :
    wait_for_proceed_loop ((s ++ "\n") :: rest) "" = wait_for_proceed_loop rest "" ∧
    wait_for_proceed_loop ("" :: rest) buffer = (.released, rest) := by
  constructor
  · have hne : ¬ (s ++ "\n") = "" := by
      intro h
      have hd : (s ++ "\n").data = ("" : String).data := congrArg String.data h
      simp [String.data_append] at hd
    have hb : ("" : String) ++ (s ++ "\n") = s ++ "\n" := by
      apply String.ext
      simp [String.data_append]
    have hcont : containsNl (s ++ "\n") = true := by
      have hd : (s ++ "\n").data = s.data ++ ['\n'] := by simp [String.data_append]
      rw [containsNl, hd]
      exact hasNl_append_nl s.data
    have hsplit : splitOnceNl (s ++ "\n") = (s, "") := by
      rw [splitOnceNl]
      have : (s ++ "\n").data = s.data ++ '\n' :: [] := by simp [String.data_append]
      rw [this, breakNl_append hnl]
    simp only [wait_for_proceed_loop, hne, if_false, hb, hcont, if_true, hsplit, hmal]
  · simp [wait_for_proceed_loop]

/-- Witness for the amended C3 at a concrete malformed line. -/
theorem c3_gate_discard_and_failopen_witness :
    jsonLoads "bad" = none ∧ hasNl "bad".data = false ∧
    wait_for_proceed_loop (("bad" ++ "\n") :: ["\x22Proceed\x22\n"]) "" =
      wait_for_proceed_loop ["\x22Proceed\x22\n"] "" ∧
    wait_for_proceed_loop ("" :: ["\x22Proceed\x22\n"]) "junk" = (.released, ["\x22Proceed\x22\n"]) :=
  ⟨rfl, rfl, (c3_gate_discard_and_failopen "bad" ["\x22Proceed\x22\n"] "junk" rfl rfl).1,
    (c3_gate_discard_and_failopen "bad" ["\x22Proceed\x22\n"] "junk" rfl rfl).2⟩

end Piloteer

namespace Piloteer

/-- On a connected session every `_send` produces exactly one line
(the substitute error line when encoding fails). -/
theorem send_connected_singleton (m : PyVal) : (send true m).length = 1 := by
  rw [send, if_pos rfl]
  cases jsonDumps m <;> rfl

/-- The debug loop is entered exactly for results that are failed and
not unreachable. -/
theorem process_result_entered_flags (cfg : Cfg) (prev : List (String × Nat))
    (st : EngineState) (res : TaskRes) (chunks : List String)
    (h : (process_result cfg prev st res chunks).entered = true) :
    res.failed = true ∧ res.unreachable = false := by
  by_cases h1 : res.unreachable
  · simp [process_result, h1] at h
  · by_cases h2 : res.failed
    · exact ⟨h2, by simp [h1]⟩
    · simp [process_result, h1, h2] at h

/-- The unreachable branch of `_process_pending_results`: exactly one
`TaskUnreachable` is emitted, the debug loop is not entered, state and
inbound stream are untouched, and the result is passed through. -/
theorem process_result_unreachable_eq (cfg : Cfg) (prev : List (String × Nat))
    (st : EngineState) (res : TaskRes) (chunks : List String)
    (h : res.unreachable = true) :
    process_result cfg prev st res chunks =
      ⟨st, send cfg.connected (task_unreachable_msg res.task res.host
          (pyGetD res.data "msg" (.str "Host unreachable")) (serialize_safe 0 res.data)),
        [res], false, .done, chunks⟩ := by
  simp [process_result, h]

/-- Across a whole pass, every debug-loop entry comes from a result
that is failed and not unreachable. -/
theorem process_results_entered_sound (cfg : Cfg) (prev : List (String × Nat)) :
    ∀ (results : List TaskRes) (st : EngineState) (chunks : List String)
      (p : String × String), p ∈ (process_results cfg prev st results chunks).entered →
      ∃ res, res ∈ results ∧ res.failed = true ∧ res.unreachable = false ∧
        p = (res.host, res.task) := by
  intro results
  induction results with
  | nil => intro st chunks p hp; simp [process_results] at hp
  | cons res rest ih =>
    intro st chunks p hp
    simp only [process_results] at hp
    split at hp
    · rcases List.mem_append.mp hp with hmem | hmem
      · by_cases he : (process_result cfg prev st res chunks).entered
        · rw [if_pos he] at hmem
          have hflags := process_result_entered_flags cfg prev st res chunks he
          exact ⟨res, List.mem_cons_self res rest, hflags.1, hflags.2, List.mem_singleton.mp hmem⟩
        · rw [if_neg he] at hmem
          exact absurd hmem (List.not_mem_nil p)
      · obtain ⟨r, hr, hf, hu, hpr⟩ := ih _ _ p hmem
        exact ⟨r, List.mem_cons_of_mem res hr, hf, hu, hpr⟩
    · by_cases he : (process_result cfg prev st res chunks).entered
      · rw [if_pos he] at hp
        have hflags := process_result_entered_flags cfg prev st res chunks he
        exact ⟨res, List.mem_cons_self res rest, hflags.1, hflags.2, List.mem_singleton.mp hp⟩
      · rw [if_neg he] at hp
        exact absurd hp (List.not_mem_nil p)

/-- Claim C5: a result classified as unreachable triggers exactly one
`TaskUnreachable{name, host, error, result}` message and never enters
the Failure Intervention Loop (first two conjuncts: the step emits the
single `TaskUnreachable` line and marks no loop entry); and, across a
whole pass, the loop is entered only for results classified as logical
failures (`is_failed` and not unreachable). -/
theorem c5_unreachable_no_loop :
    (∀ (cfg : Cfg) (prev : List (String × Nat)) (st : EngineState) (res : TaskRes)
       (chunks : List String), res.unreachable = true →
       process_result cfg prev st res chunks =
         ⟨st, send cfg.connected (task_unreachable_msg res.task res.host
             (pyGetD res.data "msg" (.str "Host unreachable")) (serialize_safe 0 res.data)),
           [res], false, .done, chunks⟩) ∧
    (∀ m : PyVal, (send true m).length = 1) ∧
    (∀ (cfg : Cfg) (prev : List (String × Nat)) (results : List TaskRes) (st : EngineState)
       (chunks : List String) (p : String × String),
       p ∈ (process_results cfg prev st results chunks).entered →
       ∃ res, res ∈ results ∧ res.failed = true ∧ res.unreachable = false ∧
         p = (res.host, res.task)) :=
  ⟨process_result_unreachable_eq, send_connected_singleton,
    fun cfg prev results st chunks p => process_results_entered_sound cfg prev results st chunks p⟩

/-- Witness for C5: one unreachable result on a connected session. -/
theorem c5_unreachable_no_loop_witness :
    process_result ⟨true, [], fun _ _ => .pynone, "pc"⟩ [] ⟨[], [], [], [], [], [], []⟩
      ⟨"db1", "ping", true, false, false,
        .dict (.cons "msg" (.str "No route to host") .nil)⟩ [] =
      ⟨⟨[], [], [], [], [], [], []⟩,
        send true (task_unreachable_msg "ping" "db1"
          (pyGetD (.dict (.cons "msg" (.str "No route to host") .nil)) "msg" (.str "Host unreachable"))
          (serialize_safe 0 (.dict (.cons "msg" (.str "No route to host") .nil)))),
        [⟨"db1", "ping", true, false, false, .dict (.cons "msg" (.str "No route to host") .nil)⟩],
        false, .done, []⟩ :=
  c5_unreachable_no_loop.1 ⟨true, [], fun _ _ => .pynone, "pc"⟩ [] ⟨[], [], [], [], [], [], []⟩
    ⟨"db1", "ping", true, false, false, .dict (.cons "msg" (.str "No route to host") .nil)⟩ [] rfl

/-- Claim C9: while the Failure Intervention Loop awaits a command, a
bare inbound `"Proceed"` is not discarded as noise: `_wait_for_command`
maps it to the same `("Continue", None)` return as an inbound
`"Continue"` (first conjunct), and the loop consequently emits the
terminal failed `TaskResult`, marks the result for pass-through, and
exits — no retry, no re-queue, state untouched (second conjunct). -/
theorem c9_bare_proceed_acts_as_continue (cfg : Cfg) (prev : List (String × Nat))
    (res : TaskRes) (safe : PyVal) (st : EngineState) (rest : List String)
    (hc : cfg.connected = true) :
    wait_for_command cfg.connected ("\x22Proceed\x22\n" :: rest) = (.cont, rest) ∧
    debug_loop cfg prev res safe st ("\x22Proceed\x22\n" :: rest) =
      ⟨st, send cfg.connected (task_result_msg res.task res.host false true safe), true,
        .continued, rest⟩ := by
  obtain ⟨conn, cache, fv, pc⟩ := cfg
  cases hc
  exact ⟨rfl, rfl⟩

/-- Witness for C9 at a concrete failed result. -/
theorem c9_bare_proceed_acts_as_continue_witness :
    wait_for_command true ("\x22Proceed\x22\n" :: []) = (.cont, []) ∧
    debug_loop ⟨true, [], fun _ _ => .pynone, "pc"⟩ [] ⟨"h1", "t1", false, true, false, .pynone⟩
      (.str "s") ⟨[], [], [], [], [], [], []⟩ ("\x22Proceed\x22\n" :: []) =
      ⟨⟨[], [], [], [], [], [], []⟩,
        send true (task_result_msg "t1" "h1" false true (.str "s")), true, .continued, []⟩ :=
  c9_bare_proceed_acts_as_continue ⟨true, [], fun _ _ => .pynone, "pc"⟩ []
    ⟨"h1", "t1", false, true, false, .pynone⟩ (.str "s") ⟨[], [], [], [], [], [], []⟩ [] rfl

end Piloteer

namespace Piloteer

theorem assocGet_assocSet_self {α β : Type} [DecidableEq α] (l : List (α × β)) (k : α) (v : β) :
    assocGet (assocSet l k v) k = some v := by
  induction l with
  | nil => simp [assocSet, assocGet]
  | cons p rest ih =>
    obtain ⟨k', v'⟩ := p
    by_cases hk : k' = k
    · simp [assocSet, assocGet, hk]
    · simp only [assocSet, if_neg hk, assocGet]
      exact ih

/-- Claim C2, counterexample: after a `TaskFail`, the inbound command
`ModifyVar{key: "", value: "y"}` does not write into the override table
(the `if key:` guard drops any falsy key), contradicting the claim's
unconditional "writes key=value"; the subsequent `Continue` still emits
the single terminal failed `TaskResult` and the loop exits with no
re-queue. -/
theorem c2_falsy_key_counterexample :
    (debug_loop ⟨true, [], fun _ _ => .pynone, "pc"⟩ []
        ⟨"h1", "t1", false, true, false, .pynone⟩ (.str "s") ⟨[], [], [], [], [], [], []⟩
        ["\x7b\x22ModifyVar\x22: \x7b\x22key\x22: \x22\x22, \x22value\x22: \x22y\x22\x7d\x7d\n",
          "\x22Continue\x22\n"]) =
      ⟨⟨[], [], [], [], [], [], []⟩,
        send true (task_result_msg "t1" "h1" false true (.str "s")), true, .continued, []⟩ :=
  rfl

/-- Claim C2 (amended): after a `TaskFail`, an inbound
`ModifyVar{key, value}` whose key is truthy (here: a non-empty string)
writes key=value into the process-wide override table — a falsy key is
silently ignored — and leaves the loop awaiting a further command
without emitting anything or resolving the failure (first implication:
when the stream then ends, the loop is still blocked with the override
recorded); a subsequent inbound `Continue` emits exactly one terminal
`TaskResult` with `failed: true` carrying the serialized original
failure payload, exits the loop, and performs no retry or re-queue
(second implication). -/
theorem c2_modifyvar_then_continue (cfg : Cfg) (prev : List (String × Nat)) (res : TaskRes)
    (safe : PyVal) (st : EngineState) (chunks rem : List String) (es : PyEntries)
    (k : String) (v : PyVal)
    (hw1 : wait_for_command cfg.connected chunks = (.modifyVar (.dict es), rem))
    (hkey : entriesGet es "key" = some (.str k)) (hk : k ≠ "")
    (hval : entriesGet es "value" = some v) :
    (∀ (b : String) (rem' : List String),
      wait_for_command cfg.connected rem = (.starved b, rem') →
      debug_loop cfg prev res safe st chunks =
        ⟨{ st with extra_vars := pvSet st.extra_vars (.str k) v }, [], false, .awaiting, rem'⟩) ∧
    (∀ rem' : List String,
      wait_for_command cfg.connected rem = (.cont, rem') →
      debug_loop cfg prev res safe st chunks =
        ⟨{ st with extra_vars := pvSet st.extra_vars (.str k) v },
          send cfg.connected (task_result_msg res.task res.host false true safe), true,
          .continued, rem'⟩) := by
  have hlen : rem.length < chunks.length := wait_for_command_modifyVar_length hw1
  have hstep : debug_loop cfg prev res safe st chunks =
      debug_loop_fuel cfg prev res safe chunks.length
        { st with extra_vars := pvSet st.extra_vars (.str k) v } rem := by
    rw [debug_loop, debug_loop_fuel, hw1]
    simp only [hkey, Option.getD_some, pyHashable, hval]
    rw [if_pos (show pyTruthy (PyVal.str k) = true by simp [pyTruthy, hk])]
    simp only [if_true]
  obtain ⟨m, hm⟩ : ∃ m, chunks.length = m + 1 := ⟨chunks.length - 1, by omega⟩
  constructor
  · intro b rem' hw2
    rw [hstep, hm, debug_loop_fuel, hw2]
  · intro rem' hw2
    rw [hstep, hm, debug_loop_fuel, hw2]

/-- Witness for the amended C2: `ModifyVar{key:"x", value:"y"}` then
end-of-stream (first conjunct), and then `Continue` (second conjunct). -/
theorem c2_modifyvar_then_continue_witness :
    (debug_loop ⟨true, [], fun _ _ => .pynone, "pc"⟩ []
        ⟨"h1", "t1", false, true, false, .pynone⟩ (.str "s") ⟨[], [], [], [], [], [], []⟩
        ["\x7b\x22ModifyVar\x22: \x7b\x22key\x22: \x22x\x22, \x22value\x22: \x22y\x22\x7d\x7d\n"] =
      ⟨⟨[], [], [], [], [], [(.str "x", .str "y")], []⟩, [], false, .awaiting, []⟩) ∧
    (debug_loop ⟨true, [], fun _ _ => .pynone, "pc"⟩ []
        ⟨"h1", "t1", false, true, false, .pynone⟩ (.str "s") ⟨[], [], [], [], [], [], []⟩
        ["\x7b\x22ModifyVar\x22: \x7b\x22key\x22: \x22x\x22, \x22value\x22: \x22y\x22\x7d\x7d\n",
          "\x22Continue\x22\n"] =
      ⟨⟨[], [], [], [], [], [(.str "x", .str "y")], []⟩,
        send true (task_result_msg "t1" "h1" false true (.str "s")), true, .continued, []⟩) :=
  ⟨(c2_modifyvar_then_continue ⟨true, [], fun _ _ => .pynone, "pc"⟩ []
      ⟨"h1", "t1", false, true, false, .pynone⟩ (.str "s") ⟨[], [], [], [], [], [], []⟩
      ["\x7b\x22ModifyVar\x22: \x7b\x22key\x22: \x22x\x22, \x22value\x22: \x22y\x22\x7d\x7d\n"]
      [] (.cons "key" (.str "x") (.cons "value" (.str "y") .nil)) "x" (.str "y")
      rfl rfl (by decide) rfl).1 "" [] rfl,
   (c2_modifyvar_then_continue ⟨true, [], fun _ _ => .pynone, "pc"⟩ []
      ⟨"h1", "t1", false, true, false, .pynone⟩ (.str "s") ⟨[], [], [], [], [], [], []⟩
      ["\x7b\x22ModifyVar\x22: \x7b\x22key\x22: \x22x\x22, \x22value\x22: \x22y\x22\x7d\x7d\n",
        "\x22Continue\x22\n"]
      ["\x22Continue\x22\n"] (.cons "key" (.str "x") (.cons "value" (.str "y") .nil)) "x"
      (.str "y") rfl rfl (by decide) rfl).2 [] rfl⟩

end Piloteer

namespace Piloteer

/-- The `Retry` branch of the debug loop in one equation: restore the
snapshot position, un-fail the host, re-admit it, decrement its failure
counter, set its blocked flag, and append exactly one `_queue_task`
call whose dispatch context is the cached one when present, else
freshly resolved. -/
theorem debug_loop_retry_eq (cfg : Cfg) (prev : List (String × Nat)) (res : TaskRes)
    (safe : PyVal) (st : EngineState) (chunks rem : List String) (snap : Nat)
    (hw : wait_for_command cfg.connected chunks = (.retry, rem))
    (hsnap : assocGet prev res.host = some snap) :
    debug_loop cfg prev res safe st chunks =
      ⟨{ st with
          host_states := assocSet st.host_states res.host snap,
          failed_hosts := st.failed_hosts.erase res.host,
          removed_hosts := st.removed_hosts.erase res.host,
          stats_failures := statsDecrement st.stats_failures res.host,
          blocked_hosts := assocSet st.blocked_hosts res.host true,
          queued := st.queued ++ [⟨res.host, res.task,
            (match assocGet cfg.cache (res.host, res.task) with
             | some c => (c.task_vars, c.play_ctx)
             | none => (cfg.fresh_vars res.host res.task, cfg.play_ctx)).1,
            (match assocGet cfg.cache (res.host, res.task) with
             | some c => (c.task_vars, c.play_ctx)
             | none => (cfg.fresh_vars res.host res.task, cfg.play_ctx)).2⟩] },
        [], false, .retried, rem⟩ := by
  rw [debug_loop, debug_loop_fuel, hw, hsnap]

/-- Claim C1, counterexample: a failed task on host `h1` whose blocked
flag is clear (`false`), answered with `Retry`.  The claim requires the
Rollback Coordinator to clear any blocked flag for the host; the code
instead sets `self._blocked_hosts["h1"] = True`, so after the pass the
flag is set (second conjunct) although it was clear before (first
conjunct).  Every other rollback step behaves as claimed. -/
theorem c1_blocked_flag_counterexample :
    assocGet ([("h1", false)] : List (String × Bool)) "h1" = some false ∧
    (process_pending_results ⟨true, [], fun _ _ => .dict .nil, "pc"⟩
        (fun s => ([⟨"h1", "t1", false, true, false, .dict (.cons "msg" (.str "boom") .nil)⟩], s))
        ⟨[("h1", 3)], ["h1"], ["h1"], [("h1", 1)], [("h1", false)], [], []⟩
        ["\x22Retry\x22\n"]).state.blocked_hosts = [("h1", true)] :=
  ⟨rfl, rfl⟩

/-- Claim C1 (amended): for a logical task failure answered by an
inbound `Retry`, one call of the result-processing pass performs, as
one unit on the control thread: restore the host's execution position
to the snapshot captured at the start of the pass (conjunct 1), remove
the host from the engine's failed-host set (2), re-admit it to the
active host set if it had been removed (3), decrement the run-wide
failure counter for the host by exactly one (4), set — not clear — the
host's blocked flag, marking it busy with the re-queued task (5), and
trigger exactly one re-queue of the identical task, with the cached
dispatch context when present (6) else freshly resolved variables (7);
the pass emits only the `TaskFail` notification (8), does not pass the
failed result through (9), enters the intervention loop exactly once
for it (10), and ends normally with the remaining inbound stream (11). -/
theorem c1_retry_rollback (cfg : Cfg) (parent : EngineState → List TaskRes × EngineState)
    (st st1 : EngineState) (res : TaskRes) (chunks rem : List String) (snap f : Nat)
    (hpar : parent st = ([res], st1))
    (hunr : res.unreachable = false) (hfail : res.failed = true)
    (hsnap : assocGet st.host_states res.host = some snap)
    (hstats : assocGet st1.stats_failures res.host = some f) (hf : 1 ≤ f)
    (hw : wait_for_command cfg.connected chunks = (.retry, rem)) :
    (process_pending_results cfg parent st chunks).state.host_states =
        assocSet st1.host_states res.host snap ∧
    (process_pending_results cfg parent st chunks).state.failed_hosts =
        st1.failed_hosts.erase res.host ∧
    (process_pending_results cfg parent st chunks).state.removed_hosts =
        st1.removed_hosts.erase res.host ∧
    (∃ g, assocGet (process_pending_results cfg parent st chunks).state.stats_failures
        res.host = some g ∧ g + 1 = f) ∧
    assocGet (process_pending_results cfg parent st chunks).state.blocked_hosts res.host =
        some true ∧
    (∀ c, assocGet cfg.cache (res.host, res.task) = some c →
      (process_pending_results cfg parent st chunks).state.queued =
        st1.queued ++ [⟨res.host, res.task, c.task_vars, c.play_ctx⟩]) ∧
    (assocGet cfg.cache (res.host, res.task) = none →
      (process_pending_results cfg parent st chunks).state.queued =
        st1.queued ++ [⟨res.host, res.task, cfg.fresh_vars res.host res.task, cfg.play_ctx⟩]) ∧
    (process_pending_results cfg parent st chunks).sent =
        send cfg.connected (task_fail_msg res.task (serialize_safe 0 res.data)) ∧
    (process_pending_results cfg parent st chunks).cleaned = [] ∧
    (process_pending_results cfg parent st chunks).entered = [(res.host, res.task)] ∧
    (process_pending_results cfg parent st chunks).status = .done ∧
    (process_pending_results cfg parent st chunks).chunksLeft = rem := by
  have hdl := debug_loop_retry_eq cfg st.host_states res (serialize_safe 0 res.data) st1
    chunks rem snap hw hsnap
  have hmain : process_pending_results cfg parent st chunks =
      ⟨{ st1 with
          host_states := assocSet st1.host_states res.host snap,
          failed_hosts := st1.failed_hosts.erase res.host,
          removed_hosts := st1.removed_hosts.erase res.host,
          stats_failures := statsDecrement st1.stats_failures res.host,
          blocked_hosts := assocSet st1.blocked_hosts res.host true,
          queued := st1.queued ++ [⟨res.host, res.task,
            (match assocGet cfg.cache (res.host, res.task) with
             | some c => (c.task_vars, c.play_ctx)
             | none => (cfg.fresh_vars res.host res.task, cfg.play_ctx)).1,
            (match assocGet cfg.cache (res.host, res.task) with
             | some c => (c.task_vars, c.play_ctx)
             | none => (cfg.fresh_vars res.host res.task, cfg.play_ctx)).2⟩] },
        send cfg.connected (task_fail_msg res.task (serialize_safe 0 res.data)),
        [], [(res.host, res.task)], .done, rem⟩ := by
    simp only [process_pending_results, hpar, process_results, process_result, hunr, hfail]
    rw [hdl]
    simp
  refine ⟨by rw [hmain], by rw [hmain], by rw [hmain],
    ⟨f - 1, ?_, by omega⟩, ?_, ?_, ?_, by rw [hmain], by rw [hmain], by rw [hmain],
    by rw [hmain], by rw [hmain]⟩
  · rw [hmain]
    show assocGet (statsDecrement st1.stats_failures res.host) res.host = some (f - 1)
    rw [statsDecrement, assocGet_assocSet_self, hstats]
    rfl
  · rw [hmain]
    exact assocGet_assocSet_self _ _ _
  · intro c hcache
    rw [hmain]
    simp only [hcache]
  · intro hcache
    rw [hmain]
    simp only [hcache]

/-- Witness for the amended C1: host `h1` with a snapshot position, one
recorded failure, a clear blocked flag, and an empty dispatch cache;
the inbound stream is a single `Retry`. -/
theorem c1_retry_rollback_witness :
    (process_pending_results ⟨true, [], fun _ _ => .dict .nil, "pc"⟩
        (fun s => ([⟨"h1", "t1", false, true, false, .dict (.cons "msg" (.str "boom") .nil)⟩], s))
        ⟨[("h1", 3)], ["h1"], ["h1"], [("h1", 1)], [("h1", false)], [], []⟩
        ["\x22Retry\x22\n"]).state.host_states = assocSet [("h1", 3)] "h1" 3 ∧
    (process_pending_results ⟨true, [], fun _ _ => .dict .nil, "pc"⟩
        (fun s => ([⟨"h1", "t1", false, true, false, .dict (.cons "msg" (.str "boom") .nil)⟩], s))
        ⟨[("h1", 3)], ["h1"], ["h1"], [("h1", 1)], [("h1", false)], [], []⟩
        ["\x22Retry\x22\n"]).state.queued =
      [] ++ [⟨"h1", "t1", PyVal.dict .nil, "pc"⟩] :=
  have h := c1_retry_rollback ⟨true, [], fun _ _ => .dict .nil, "pc"⟩
    (fun s => ([⟨"h1", "t1", false, true, false, .dict (.cons "msg" (.str "boom") .nil)⟩], s))
    ⟨[("h1", 3)], ["h1"], ["h1"], [("h1", 1)], [("h1", false)], [], []⟩
    ⟨[("h1", 3)], ["h1"], ["h1"], [("h1", 1)], [("h1", false)], [], []⟩
    ⟨"h1", "t1", false, true, false, .dict (.cons "msg" (.str "boom") .nil)⟩
    ["\x22Retry\x22\n"] [] 3 1 rfl rfl rfl rfl rfl (by decide) rfl
  ⟨h.1, h.2.2.2.2.2.2.1 rfl⟩

end Piloteer


namespace Piloteer

/-- View of dict entries as a list of pairs, for membership statements. -/
def entriesToList : PyEntries → List (String × PyVal)
  | .nil => []
  | .cons k v r => (k, v) :: entriesToList r

/-- No key with the reserved engine-internal prefix survives the
filtering. -/
theorem serializable_vars_no_internal (es : PyEntries) :
    ∀ kv ∈ entriesToList (serializable_vars es), strStartsWith kv.1 "ansible_" = false := by
  cases es with
  | nil => intro kv hkv; simp [serializable_vars, entriesToList] at hkv
  | cons k v rest =>
    intro kv hkv
    have ih := serializable_vars_no_internal rest
    by_cases hpre : strStartsWith k "ansible_"
    · rw [serializable_vars, if_pos hpre] at hkv
      exact ih kv hkv
    · rw [serializable_vars, if_neg hpre] at hkv
      cases hd : jsonDumps v with
      | some sv =>
        rw [hd] at hkv
        rcases List.mem_cons.mp (by simpa [entriesToList] using hkv) with heq | hmem
        · rw [heq]
          simpa using hpre
        · exact ih kv hmem
      | none =>
        rw [hd] at hkv
        rcases List.mem_cons.mp (by simpa [entriesToList] using hkv) with heq | hmem
        · rw [heq]
          simpa using hpre
        · exact ih kv hmem

/-- A non-internal variable whose value survives a `json.dumps` round
trip is passed through unchanged. -/
theorem serializable_vars_keeps (es : PyEntries) :
    ∀ (k : String) (v : PyVal), (k, v) ∈ entriesToList es →
      strStartsWith k "ansible_" = false → (jsonDumps v).isSome = true →
      (k, v) ∈ entriesToList (serializable_vars es) := by
  cases es with
  | nil => intro k v hkv; simp [entriesToList] at hkv
  | cons k' v' rest =>
    intro k v hkv hpre hser
    have ih := serializable_vars_keeps rest
    rcases (show k = k' ∧ v = v' ∨ (k, v) ∈ entriesToList rest from by
        simpa [entriesToList] using hkv) with ⟨hk, hv⟩ | hmem
    · subst hk
      subst hv
      rw [serializable_vars, if_neg (by rw [hpre]; exact Bool.false_ne_true)]
      obtain ⟨sv, hsv⟩ := Option.isSome_iff_exists.mp hser
      rw [hsv]
      simp [entriesToList]
    · have htail := ih k v hmem hpre hser
      rw [serializable_vars]
      by_cases hpre' : strStartsWith k' "ansible_"
      · rw [if_pos hpre']
        exact htail
      · rw [if_neg hpre']
        cases hd : jsonDumps v' with
        | some sv => simp only [entriesToList, List.mem_cons]; exact Or.inr htail
        | none => simp only [entriesToList, List.mem_cons]; exact Or.inr htail

/-- A non-internal variable whose value fails `json.dumps` is replaced
by the placeholder. -/
theorem serializable_vars_placeholder (es : PyEntries) :
    ∀ (k : String) (v : PyVal), (k, v) ∈ entriesToList es →
      strStartsWith k "ansible_" = false → jsonDumps v = none →
      (k, .str "<Non-Serializable>") ∈ entriesToList (serializable_vars es) := by
  cases es with
  | nil => intro k v hkv; simp [entriesToList] at hkv
  | cons k' v' rest =>
    intro k v hkv hpre hser
    have ih := serializable_vars_placeholder rest
    rcases (show k = k' ∧ v = v' ∨ (k, v) ∈ entriesToList rest from by
        simpa [entriesToList] using hkv) with ⟨hk, hv⟩ | hmem
    · subst hk
      subst hv
      rw [serializable_vars, if_neg (by rw [hpre]; exact Bool.false_ne_true), hser]
      simp [entriesToList]
    · have htail := ih k v hmem hpre hser
      rw [serializable_vars]
      by_cases hpre' : strStartsWith k' "ansible_"
      · rw [if_pos hpre']
        exact htail
      · rw [if_neg hpre']
        cases hd : jsonDumps v' with
        | some sv => simp only [entriesToList, List.mem_cons]; exact Or.inr htail
        | none => simp only [entriesToList, List.mem_cons]; exact Or.inr htail

end Piloteer

namespace Piloteer

/-- Claim C8: when the parent hands back a batch whose first pair
carries a real task, the hook emits one `TaskStart{name, task_vars}`
and then blocks on the Flow Gate for `Proceed` (first conjunct, the
full input/output equation); the transmitted `task_vars` exclude every
key with the reserved `ansible_` prefix (second conjunct), keep every
other variable whose value `json.dumps` accepts (third), and replace
every other variable whose value fails encoding with the
`"<Non-Serializable>"` placeholder (fourth). -/
theorem c8_taskstart_filtered (connected : Bool) (h t : String)
    (hts : List (String × Option String)) (task_vars : PyEntries) (chunks : List String) :
    (get_next_task_lockstep connected ((h, some t) :: hts) task_vars chunks =
      ⟨send connected (task_start_msg t (serializable_vars task_vars)),
        some (wait_for_proceed connected chunks).1, (wait_for_proceed connected chunks).2,
        (h, some t) :: hts⟩) ∧
    (∀ kv ∈ entriesToList (serializable_vars task_vars),
      strStartsWith kv.1 "ansible_" = false) ∧
    (∀ (k : String) (v : PyVal), (k, v) ∈ entriesToList task_vars →
      strStartsWith k "ansible_" = false → (jsonDumps v).isSome = true →
      (k, v) ∈ entriesToList (serializable_vars task_vars)) ∧
    (∀ (k : String) (v : PyVal), (k, v) ∈ entriesToList task_vars →
      strStartsWith k "ansible_" = false → jsonDumps v = none →
      (k, .str "<Non-Serializable>") ∈ entriesToList (serializable_vars task_vars)) :=
  ⟨rfl, serializable_vars_no_internal task_vars,
    fun k v => serializable_vars_keeps task_vars k v,
    fun k v => serializable_vars_placeholder task_vars k v⟩

/-- The vars handed to the first (host, task) pair in the C8 witness:
an engine-internal key, a non-serializable value, an ordinary pair. -/
def c8vars : PyEntries :=
  .cons "ansible_facts" (.int 1) (.cons "app" (.other "obj") (.cons "name" (.str "web") .nil))

/-- Witness for C8 at concrete inputs. -/
theorem c8_taskstart_filtered_witness :
    (get_next_task_lockstep true [("web1", some "deploy")] c8vars ["\x22Proceed\x22\n"] =
      ⟨send true (task_start_msg "deploy" (serializable_vars c8vars)),
        some (wait_for_proceed true ["\x22Proceed\x22\n"]).1,
        (wait_for_proceed true ["\x22Proceed\x22\n"]).2, [("web1", some "deploy")]⟩) ∧
    ("name", PyVal.str "web") ∈ entriesToList (serializable_vars c8vars) ∧
    ("app", PyVal.str "<Non-Serializable>") ∈ entriesToList (serializable_vars c8vars) :=
  have hc8 := c8_taskstart_filtered true "web1" "deploy" [] c8vars ["\x22Proceed\x22\n"]
  ⟨hc8.1,
   hc8.2.2.1 "name" (.str "web") (by simp [c8vars, entriesToList]) rfl rfl,
   hc8.2.2.2 "app" (.other "obj") (by simp [c8vars, entriesToList]) rfl rfl⟩

end Piloteer
